import Mathlib

/-
  Verification development for the TUI101 repository.

  Shallow embedding of the pane-list model (src/panes/stash.go, package
  panes: PaneItem, BasePaneModel and its methods), of the stash panel
  update loop (src/panes/stash.go, StashPane), and of the two
  application-router variants (src/unnamed/part_002 and
  src/unnamed/part_003, package app: Model, handleKeyMsg, setActivePane,
  nextPane, prevPane, DetailsPane).

  Go machine integers are modeled as Int (no arithmetic here comes close
  to overflowing int64, and all index arithmetic is small).  Go slices
  become List values; slice expressions items[a:b] become take/drop,
  which coincide with Go semantics on the in-bounds index ranges that
  the proofs establish (Go would panic out of bounds).  Methods with
  pointer receivers become functions returning the updated record.
-/

set_option maxHeartbeats 1000000

namespace TUI101

/-- PaneType from src/panes/stash.go. -/
inductive PaneType
  | StatusPaneType
  | FilesPaneType
  | BranchesPaneType
  | CommitsPaneType
  | StashPaneType
  | DiffPaneType
  deriving DecidableEq, Repr

/-- PaneItem from src/panes/stash.go.  The Go field Type is a reserved
word in Lean and is rendered Typ; the untyped Metadata payload is not
consulted by any modeled operation and is omitted. -/
structure PaneItem where
  Display : String
  Value : String
  Icon : String
  Typ : String
  Selected : Bool
  Color : String
  deriving DecidableEq, Repr

/-- BasePaneModel from src/panes/stash.go, with the same fields. -/
structure BasePaneModel where
  title : String
  paneType : PaneType
  id : String
  items : List PaneItem
  selectedIndex : Int
  active : Bool
  loading : Bool
  showLineNumbers : Bool
  maxDisplayItems : Int
  filter : String
  scrollOffset : Int
  deriving DecidableEq, Repr

/-- NewBasePaneModel from src/panes/stash.go.  The fields the Go struct
literal leaves out (filter, scrollOffset) take their zero values. -/
def NewBasePaneModel (title : String) (paneType : PaneType) (id : String) : BasePaneModel :=
  { title := title
    paneType := paneType
    id := id
    items := []
    selectedIndex := 0
    active := false
    loading := false
    showLineNumbers := false
    maxDisplayItems := 50
    filter := ""
    scrollOffset := 0 }

/-- Abbreviation for the Go expression len(b.items) as an Int. -/
def BasePaneModel.len (b : BasePaneModel) : Int := (b.items.length : Int)

/-- adjustScrollOffset from src/panes/stash.go: keep the selected item
inside the visible window, then clamp the offset at zero. -/
def BasePaneModel.adjustScrollOffset (b : BasePaneModel) : BasePaneModel :=
  if b.len = 0 then { b with scrollOffset := 0 }
  else
    let b1 := if b.selectedIndex < b.scrollOffset then
        { b with scrollOffset := b.selectedIndex } else b
    let b2 := if b1.selectedIndex ≥ b1.scrollOffset + b1.maxDisplayItems then
        { b1 with scrollOffset := b1.selectedIndex - b1.maxDisplayItems + 1 } else b1
    if b2.scrollOffset < 0 then { b2 with scrollOffset := 0 } else b2

/-- MoveUp from src/panes/stash.go. -/
def BasePaneModel.MoveUp (b : BasePaneModel) : BasePaneModel :=
  if b.len = 0 then b
  else
    let b' := if b.selectedIndex > 0 then { b with selectedIndex := b.selectedIndex - 1 }
              else { b with selectedIndex := b.len - 1 }
    b'.adjustScrollOffset

/-- MoveDown from src/panes/stash.go. -/
def BasePaneModel.MoveDown (b : BasePaneModel) : BasePaneModel :=
  if b.len = 0 then b
  else
    let b' := if b.selectedIndex < b.len - 1 then { b with selectedIndex := b.selectedIndex + 1 }
              else { b with selectedIndex := 0 }
    b'.adjustScrollOffset

/-- MoveToTop from src/panes/stash.go. -/
def BasePaneModel.MoveToTop (b : BasePaneModel) : BasePaneModel :=
  { b with selectedIndex := 0, scrollOffset := 0 }

/-- MoveToBottom from src/panes/stash.go. -/
def BasePaneModel.MoveToBottom (b : BasePaneModel) : BasePaneModel :=
  if b.len > 0 then ({ b with selectedIndex := b.len - 1 }).adjustScrollOffset
  else b

/-- SelectItem from src/panes/stash.go. -/
def BasePaneModel.SelectItem (b : BasePaneModel) (index : Int) : BasePaneModel :=
  if 0 ≤ index ∧ index < b.len then ({ b with selectedIndex := index }).adjustScrollOffset
  else b

/-- IsActive, SetActive, IsLoading, SetLoading from src/panes/stash.go. -/
def BasePaneModel.SetActive (b : BasePaneModel) (active : Bool) : BasePaneModel :=
  { b with active := active }

/-- SetLoading from src/panes/stash.go. -/
def BasePaneModel.SetLoading (b : BasePaneModel) (loading : Bool) : BasePaneModel :=
  { b with loading := loading }

/-- Clear from src/panes/stash.go. -/
def BasePaneModel.Clear (b : BasePaneModel) : BasePaneModel :=
  { b with items := [], selectedIndex := 0, scrollOffset := 0 }

/-- AddItem from src/panes/stash.go. -/
def BasePaneModel.AddItem (b : BasePaneModel) (item : PaneItem) : BasePaneModel :=
  { b with items := b.items ++ [item] }

/-- RemoveItem from src/panes/stash.go: the Go append over two subslices
removes the element at the index; the clamp and scroll adjustment read
the shortened list. -/
def BasePaneModel.RemoveItem (b : BasePaneModel) (index : Int) : BasePaneModel :=
  if 0 ≤ index ∧ index < b.len then
    let b1 := { b with items := b.items.take index.toNat ++ b.items.drop (index.toNat + 1) }
    let b2 := if b1.selectedIndex ≥ b1.len ∧ b1.len > 0 then
        { b1 with selectedIndex := b1.len - 1 } else b1
    b2.adjustScrollOffset
  else b

/-- SetMaxDisplayItems from src/panes/stash.go. -/
def BasePaneModel.SetMaxDisplayItems (b : BasePaneModel) (max : Int) : BasePaneModel :=
  { b with maxDisplayItems := max }

/-- GetSelectedItem from src/panes/stash.go.  The Go method returns a
pointer into the slice or nil; here nil becomes none. -/
def BasePaneModel.GetSelectedItem (b : BasePaneModel) : Option PaneItem :=
  if b.len = 0 ∨ b.selectedIndex ≥ b.len ∨ b.selectedIndex < 0 then none
  else b.items[b.selectedIndex.toNat]?

/-- GetVisibleItems from src/panes/stash.go.  The final Go expression is
the slice b.items[start:stop]. -/
def BasePaneModel.GetVisibleItems (b : BasePaneModel) : List PaneItem :=
  if b.len = 0 then []
  else
    let start := b.scrollOffset
    let stop0 := start + b.maxDisplayItems
    let stop := if stop0 > b.len then b.len else stop0
    let start' := if start > stop then stop else start
    (b.items.drop start'.toNat).take (stop - start').toNat

/-- lowerChar models the effect of Go strings.ToLower on one character.
The repository only ever filters ASCII git identifiers, so the model
restricts Unicode case mapping to the ASCII range, where it agrees with
Go. -/
def lowerChar (c : Char) : Char :=
  if 'A' ≤ c ∧ c ≤ 'Z' then Char.ofNat (c.toNat + 32) else c

/-- goToLower models Go strings.ToLower, character by character. -/
def goToLower (s : String) : String := String.mk (s.toList.map lowerChar)

/-- isPrefixList c l decides whether the character list c starts the
character list l. -/
def isPrefixList : List Char → List Char → Bool
  | [], _ => true
  | _ :: _, [] => false
  | c :: cs, d :: ds => c == d && isPrefixList cs ds

/-- containsFrom sub l decides whether sub occurs as a contiguous run
inside l. -/
def containsFrom (sub : List Char) : List Char → Bool
  | [] => sub.isEmpty
  | c :: t => isPrefixList sub (c :: t) || containsFrom sub t

/-- goContains models Go strings.Contains. -/
def goContains (s substr : String) : Bool := containsFrom substr.toList s.toList

/-- containsIgnoreCase from src/panes/stash.go: lower-case both strings,
then substring containment. -/
def containsIgnoreCase (s substr : String) : Bool :=
  goContains (goToLower s) (goToLower substr)

/-- Filter from src/panes/stash.go: empty query returns the stored
sequence itself; otherwise a loop appends each matching item to a fresh
slice. -/
def BasePaneModel.Filter (b : BasePaneModel) (query : String) : List PaneItem :=
  if query = "" then b.items
  else b.items.foldl
    (fun filtered item =>
      if containsIgnoreCase item.Display query || containsIgnoreCase item.Value query then
        filtered ++ [item]
      else filtered) []

/-- The mutating list operations named by the invariant claims. -/
inductive PaneOp
  | moveUp
  | moveDown
  | moveToTop
  | moveToBottom
  | select (index : Int)
  | add (item : PaneItem)
  | remove (index : Int)
  | clear
  deriving DecidableEq, Repr

/-- applyOp dispatches one public mutating operation. -/
def applyOp : PaneOp → BasePaneModel → BasePaneModel
  | .moveUp, b => b.MoveUp
  | .moveDown, b => b.MoveDown
  | .moveToTop, b => b.MoveToTop
  | .moveToBottom, b => b.MoveToBottom
  | .select i, b => b.SelectItem i
  | .add it, b => b.AddItem it
  | .remove i, b => b.RemoveItem i
  | .clear, b => b.Clear

/-- States reachable from construction through the public mutating
operations. -/
inductive Reachable : BasePaneModel → Prop
  | init (title : String) (paneType : PaneType) (id : String) :
      Reachable (NewBasePaneModel title paneType id)
  | step (b : BasePaneModel) (op : PaneOp) : Reachable b → Reachable (applyOp op b)

/-- The inductive invariant of the pane-list state: a positive window
size, a nonnegative scroll offset, zeroed cursor state on the empty
list, and on a non-empty list an in-bounds cursor sitting inside the
visible window. -/
def Inv (b : BasePaneModel) : Prop :=
  1 ≤ b.maxDisplayItems ∧ 0 ≤ b.scrollOffset ∧
  (b.items = [] → b.selectedIndex = 0 ∧ b.scrollOffset = 0) ∧
  (b.items ≠ [] → 0 ≤ b.selectedIndex ∧ b.selectedIndex < b.len ∧
    b.scrollOffset ≤ b.selectedIndex ∧
    b.selectedIndex ≤ b.scrollOffset + b.maxDisplayItems - 1)

/-- adjustScrollOffset changes only the scrollOffset field. -/
theorem adjust_preserves (b : BasePaneModel) :
    (b.adjustScrollOffset).items = b.items ∧
    (b.adjustScrollOffset).selectedIndex = b.selectedIndex ∧
    (b.adjustScrollOffset).maxDisplayItems = b.maxDisplayItems ∧
    (b.adjustScrollOffset).active = b.active ∧
    (b.adjustScrollOffset).loading = b.loading := by
  simp only [BasePaneModel.adjustScrollOffset]
  split_ifs <;> simp_all

/-- On a non-empty list, adjustScrollOffset lands the offset in the
window [selectedIndex - maxDisplayItems + 1, selectedIndex] and keeps
it nonnegative. -/
theorem adjust_bounds (b : BasePaneModel) (hne : b.items ≠ []) (h0 : 0 ≤ b.selectedIndex)
    (hmax : 1 ≤ b.maxDisplayItems) :
    0 ≤ (b.adjustScrollOffset).scrollOffset ∧
    (b.adjustScrollOffset).scrollOffset ≤ b.selectedIndex ∧
    b.selectedIndex ≤ (b.adjustScrollOffset).scrollOffset + b.maxDisplayItems - 1 := by
  have hz : ¬ b.len = 0 := by
    simp only [BasePaneModel.len, Int.natCast_eq_zero, List.length_eq_zero]
    exact hne
  simp only [BasePaneModel.adjustScrollOffset]
  rw [if_neg hz]
  split_ifs <;> simp_all <;> omega

/-- On an empty list, adjustScrollOffset only zeroes the offset. -/
theorem adjust_empty (b : BasePaneModel) (hnil : b.items = []) :
    b.adjustScrollOffset = { b with scrollOffset := 0 } := by
  have hz : b.len = 0 := by simp [BasePaneModel.len, hnil]
  simp only [BasePaneModel.adjustScrollOffset]
  rw [if_pos hz]

/-- A non-empty in-bounds cursor state satisfies Inv after scroll
adjustment. -/
theorem inv_of_adjust (b : BasePaneModel) (hne : b.items ≠ []) (h0 : 0 ≤ b.selectedIndex)
    (hlt : b.selectedIndex < b.len) (hmax : 1 ≤ b.maxDisplayItems) :
    Inv b.adjustScrollOffset := by
  obtain ⟨hi, hs, hm, _, _⟩ := adjust_preserves b
  obtain ⟨o1, o2, o3⟩ := adjust_bounds b hne h0 hmax
  have hlen : (b.adjustScrollOffset).len = b.len := by
    simp [BasePaneModel.len, hi]
  refine ⟨by rw [hm]; exact hmax, o1, ?_, ?_⟩
  · intro hnil
    rw [hi] at hnil
    exact absurd hnil hne
  · intro _
    refine ⟨?_, ?_, ?_, ?_⟩
    · rw [hs]; exact h0
    · rw [hs, hlen]; exact hlt
    · rw [hs]; exact o2
    · rw [hs, hm]; exact o3

/-- The freshly constructed pane model satisfies Inv. -/
theorem inv_init (title : String) (paneType : PaneType) (id : String) :
    Inv (NewBasePaneModel title paneType id) := by
  refine ⟨?_, ?_, ?_, ?_⟩ <;> simp [NewBasePaneModel, Inv]

/-- A non-empty list has positive length. -/
theorem len_pos_of_ne_nil (b : BasePaneModel) (hne : b.items ≠ []) : 1 ≤ b.len := by
  have : 0 < b.items.length := List.length_pos.mpr hne
  simp only [BasePaneModel.len]
  omega

/-- A list with nonzero Go length is non-empty. -/
theorem ne_nil_of_len (b : BasePaneModel) (hz : ¬ b.len = 0) : b.items ≠ [] := by
  intro hnil
  exact hz (by simp [BasePaneModel.len, hnil])

/-- MoveUp preserves Inv. -/
theorem inv_moveUp (b : BasePaneModel) (h : Inv b) : Inv b.MoveUp := by
  obtain ⟨hm, ho, he, hn⟩ := h
  by_cases hz : b.len = 0
  · have heq : b.MoveUp = b := by simp [BasePaneModel.MoveUp, hz]
    rw [heq]
    exact ⟨hm, ho, he, hn⟩
  · have hne := ne_nil_of_len b hz
    have hlen1 := len_pos_of_ne_nil b hne
    obtain ⟨h1, h2, h3, h4⟩ := hn hne
    simp only [BasePaneModel.MoveUp]
    rw [if_neg hz]
    by_cases hs : b.selectedIndex > 0
    · rw [if_pos hs]
      refine inv_of_adjust _ hne ?_ ?_ hm
      · show 0 ≤ b.selectedIndex - 1
        omega
      · show b.selectedIndex - 1 < b.len
        omega
    · rw [if_neg hs]
      refine inv_of_adjust _ hne ?_ ?_ hm
      · show 0 ≤ b.len - 1
        omega
      · show b.len - 1 < b.len
        omega

/-- MoveDown preserves Inv. -/
theorem inv_moveDown (b : BasePaneModel) (h : Inv b) : Inv b.MoveDown := by
  obtain ⟨hm, ho, he, hn⟩ := h
  by_cases hz : b.len = 0
  · have heq : b.MoveDown = b := by simp [BasePaneModel.MoveDown, hz]
    rw [heq]
    exact ⟨hm, ho, he, hn⟩
  · have hne := ne_nil_of_len b hz
    have hlen1 := len_pos_of_ne_nil b hne
    obtain ⟨h1, h2, h3, h4⟩ := hn hne
    simp only [BasePaneModel.MoveDown]
    rw [if_neg hz]
    by_cases hs : b.selectedIndex < b.len - 1
    · rw [if_pos hs]
      refine inv_of_adjust _ hne ?_ ?_ hm
      · show 0 ≤ b.selectedIndex + 1
        omega
      · show b.selectedIndex + 1 < b.len
        omega
    · rw [if_neg hs]
      refine inv_of_adjust _ hne ?_ ?_ hm
      · show (0:Int) ≤ 0
        omega
      · show (0:Int) < b.len
        omega

/-- MoveToTop preserves Inv. -/
theorem inv_moveToTop (b : BasePaneModel) (h : Inv b) : Inv b.MoveToTop := by
  obtain ⟨hm, ho, he, hn⟩ := h
  refine ⟨hm, ?_, ?_, ?_⟩
  · show (0:Int) ≤ 0
    omega
  · intro _
    exact ⟨rfl, rfl⟩
  · intro hne
    have hne' : b.items ≠ [] := hne
    have hlen1 := len_pos_of_ne_nil b hne'
    have hlen' : b.MoveToTop.len = b.len := rfl
    refine ⟨le_refl 0, ?_, le_refl 0, ?_⟩
    · show (0:Int) < b.MoveToTop.len
      rw [hlen']
      omega
    · show (0:Int) ≤ 0 + b.maxDisplayItems - 1
      omega

/-- MoveToBottom preserves Inv. -/
theorem inv_moveToBottom (b : BasePaneModel) (h : Inv b) : Inv b.MoveToBottom := by
  obtain ⟨hm, ho, he, hn⟩ := h
  by_cases hz : b.len > 0
  · have hne : b.items ≠ [] := ne_nil_of_len b (by omega)
    simp only [BasePaneModel.MoveToBottom]
    rw [if_pos hz]
    refine inv_of_adjust _ hne ?_ ?_ hm
    · show 0 ≤ b.len - 1
      omega
    · show b.len - 1 < b.len
      omega
  · have heq : b.MoveToBottom = b := by simp [BasePaneModel.MoveToBottom, hz]
    rw [heq]
    exact ⟨hm, ho, he, hn⟩

/-- SelectItem preserves Inv. -/
theorem inv_select (b : BasePaneModel) (i : Int) (h : Inv b) : Inv (b.SelectItem i) := by
  obtain ⟨hm, ho, he, hn⟩ := h
  by_cases hb : 0 ≤ i ∧ i < b.len
  · have hne : b.items ≠ [] := ne_nil_of_len b (by omega)
    simp only [BasePaneModel.SelectItem]
    rw [if_pos hb]
    refine inv_of_adjust _ hne ?_ ?_ hm
    · show 0 ≤ i
      omega
    · show i < b.len
      omega
  · have heq : b.SelectItem i = b := by simp [BasePaneModel.SelectItem, hb]
    rw [heq]
    exact ⟨hm, ho, he, hn⟩

/-- AddItem preserves Inv. -/
theorem inv_add (b : BasePaneModel) (it : PaneItem) (h : Inv b) : Inv (b.AddItem it) := by
  obtain ⟨hm, ho, he, hn⟩ := h
  have hlen : (b.AddItem it).len = b.len + 1 := by
    simp [BasePaneModel.AddItem, BasePaneModel.len]
  have hsel : (b.AddItem it).selectedIndex = b.selectedIndex := rfl
  have hoff : (b.AddItem it).scrollOffset = b.scrollOffset := rfl
  have hmax : (b.AddItem it).maxDisplayItems = b.maxDisplayItems := rfl
  have hlen0 : 0 ≤ b.len := by
    simp only [BasePaneModel.len]
    omega
  refine ⟨by rw [hmax]; exact hm, by rw [hoff]; exact ho, ?_, ?_⟩
  · intro hnil
    have : (b.AddItem it).items = b.items ++ [it] := rfl
    rw [this] at hnil
    simp at hnil
  · intro _
    rcases em (b.items = []) with hnil | hne
    · obtain ⟨hs, hz⟩ := he hnil
      rw [hsel, hoff, hmax, hlen, hs, hz]
      have : b.len = 0 := by simp [BasePaneModel.len, hnil]
      rw [this]
      refine ⟨le_refl 0, by omega, le_refl 0, by omega⟩
    · obtain ⟨h1, h2, h3, h4⟩ := hn hne
      rw [hsel, hoff, hmax, hlen]
      exact ⟨h1, by omega, h3, h4⟩

/-- Clear preserves Inv. -/
theorem inv_clear (b : BasePaneModel) (h : Inv b) : Inv b.Clear := by
  obtain ⟨hm, _, _, _⟩ := h
  refine ⟨hm, le_refl 0, fun _ => ⟨rfl, rfl⟩, ?_⟩
  intro hne
  exact absurd rfl hne

/-- RemoveItem preserves Inv. -/
theorem inv_remove (b : BasePaneModel) (i : Int) (h : Inv b) : Inv (b.RemoveItem i) := by
  obtain ⟨hm, ho, he, hn⟩ := h
  by_cases hb : 0 ≤ i ∧ i < b.len
  · have hne : b.items ≠ [] := ne_nil_of_len b (by omega)
    obtain ⟨h1, h2, h3, h4⟩ := hn hne
    have hbN : i.toNat < b.items.length := by
      simp only [BasePaneModel.len] at hb
      omega
    simp only [BasePaneModel.RemoveItem]
    rw [if_pos hb]
    have hlen : (b.items.take i.toNat ++ b.items.drop (i.toNat + 1)).length
        = b.items.length - 1 := by
      simp [List.length_take, List.length_drop]
      omega
    by_cases hz : b.items.length = 1
    · -- removing the only element: the clamp is skipped and the list
      -- becomes empty, so the offset is zeroed by the adjustment
      have hlen0 : (b.items.take i.toNat ++ b.items.drop (i.toNat + 1)).length = 0 := by
        omega
      have hnil : b.items.take i.toNat ++ b.items.drop (i.toNat + 1) = [] :=
        List.eq_nil_of_length_eq_zero hlen0
      have hsel0 : b.selectedIndex = 0 := by
        simp only [BasePaneModel.len] at h2
        omega
      simp only [hnil]
      have hcond : ¬ (b.selectedIndex ≥ (({ b with items := ([] : List PaneItem) }).len) ∧
          (({ b with items := ([] : List PaneItem) }).len) > 0) := by
        simp [BasePaneModel.len]
      rw [if_neg hcond]
      rw [adjust_empty _ rfl]
      refine ⟨hm, le_refl 0, ?_, ?_⟩
      · intro _
        exact ⟨hsel0, rfl⟩
      · intro hcontra
        exact absurd rfl hcontra
    · -- the shortened list is still non-empty; the clamped cursor is in
      -- bounds and the adjustment re-establishes the invariant
      have hlenpos : 0 < (b.items.take i.toNat ++ b.items.drop (i.toNat + 1)).length := by
        simp only [BasePaneModel.len] at hb
        omega
      have hne' : b.items.take i.toNat ++ b.items.drop (i.toNat + 1) ≠ [] := by
        intro hnil
        rw [hnil] at hlenpos
        simp at hlenpos
      set b1 : BasePaneModel :=
        { b with items := b.items.take i.toNat ++ b.items.drop (i.toNat + 1) } with hb1
      have hb1items : b1.items = b.items.take i.toNat ++ b.items.drop (i.toNat + 1) := rfl
      have hb1sel : b1.selectedIndex = b.selectedIndex := rfl
      have hb1max : b1.maxDisplayItems = b.maxDisplayItems := rfl
      have hb1len : 1 ≤ b1.len ∧ b1.len = b.len - 1 := by
        constructor
        · have := len_pos_of_ne_nil b1 (by rw [hb1items]; exact hne')
          omega
        · show (b1.items.length : Int) = b.len - 1
          rw [hb1items, hlen]
          simp only [BasePaneModel.len]
          omega
      by_cases hclamp : b1.selectedIndex ≥ b1.len ∧ b1.len > 0
      · rw [if_pos hclamp]
        refine inv_of_adjust _ (by exact hne') ?_ ?_ (by exact hm)
        · show 0 ≤ b1.len - 1
          omega
        · show b1.len - 1 < ({ b1 with selectedIndex := b1.len - 1 }).len
          have : ({ b1 with selectedIndex := b1.len - 1 }).len = b1.len := rfl
          rw [this]
          omega
      · rw [if_neg hclamp]
        refine inv_of_adjust _ (by exact hne') ?_ ?_ (by exact hm)
        · show 0 ≤ b1.selectedIndex
          rw [hb1sel]
          exact h1
        · show b1.selectedIndex < b1.len
          rw [Classical.not_and_iff_or_not_not] at hclamp
          rcases hclamp with hlt | hle
          · omega
          · omega
  · have heq : b.RemoveItem i = b := by simp [BasePaneModel.RemoveItem, hb]
    rw [heq]
    exact ⟨hm, ho, he, hn⟩

/-- Every public mutating operation preserves Inv. -/
theorem inv_applyOp (b : BasePaneModel) (op : PaneOp) (h : Inv b) : Inv (applyOp op b) := by
  cases op with
  | moveUp => exact inv_moveUp b h
  | moveDown => exact inv_moveDown b h
  | moveToTop => exact inv_moveToTop b h
  | moveToBottom => exact inv_moveToBottom b h
  | select i => exact inv_select b i h
  | add it => exact inv_add b it h
  | remove i => exact inv_remove b i h
  | clear => exact inv_clear b h

/-- Every reachable state satisfies Inv. -/
theorem reachable_inv (b : BasePaneModel) (h : Reachable b) : Inv b := by
  induction h with
  | init title paneType id => exact inv_init title paneType id
  | step b op _ ih => exact inv_applyOp b op ih

/-- Builds a PaneItem with the remaining Go fields at their zero values. -/
def mkItem (display value : String) : PaneItem :=
  { Display := display, Value := value, Icon := "", Typ := "", Selected := false, Color := "" }

/-- Sample items for concrete scenarios. -/
def itemA : PaneItem := mkItem "A" "a"

/-- Sample item B. -/
def itemB : PaneItem := mkItem "B" "b"

/-- Sample item C. -/
def itemC : PaneItem := mkItem "C" "c"

/-- Sample item D. -/
def itemD : PaneItem := mkItem "D" "d"

/-- Sample item E. -/
def itemE : PaneItem := mkItem "E" "e"

/-- The stash pane's base model as built by NewStashPane. -/
def stashInit : BasePaneModel := NewBasePaneModel "Stash" PaneType.StashPaneType "stash"

/-- Claim C1: after any single public list operation (MoveUp, MoveDown,
MoveToTop, MoveToBottom, SelectItem, AddItem, RemoveItem, Clear) applied
to any reachable pane-list state, a non-empty item list satisfies
0 ≤ scrollOffset ≤ selectedIndex ≤ scrollOffset + maxDisplayItems - 1. -/
theorem c1_window_invariant (b : BasePaneModel) (op : PaneOp) (h : Reachable b)
    (hne : (applyOp op b).items ≠ []) :
    0 ≤ (applyOp op b).scrollOffset ∧
    (applyOp op b).scrollOffset ≤ (applyOp op b).selectedIndex ∧
    (applyOp op b).selectedIndex ≤
      (applyOp op b).scrollOffset + (applyOp op b).maxDisplayItems - 1 := by
  obtain ⟨hm, ho, he, hn⟩ := inv_applyOp b op (reachable_inv b h)
  obtain ⟨h1, h2, h3, h4⟩ := hn hne
  exact ⟨ho, h3, h4⟩

/-- Witness for C1 at the concrete state reached by adding one item to a
fresh stash pane. -/
theorem c1_window_invariant_witness :
    0 ≤ (applyOp (PaneOp.add itemA) stashInit).scrollOffset ∧
    (applyOp (PaneOp.add itemA) stashInit).scrollOffset ≤
      (applyOp (PaneOp.add itemA) stashInit).selectedIndex ∧
    (applyOp (PaneOp.add itemA) stashInit).selectedIndex ≤
      (applyOp (PaneOp.add itemA) stashInit).scrollOffset +
        (applyOp (PaneOp.add itemA) stashInit).maxDisplayItems - 1 :=
  c1_window_invariant stashInit (PaneOp.add itemA)
    (Reachable.init "Stash" PaneType.StashPaneType "stash") (by decide)

/-- One cursor movement, as named by claim C2. -/
inductive MoveStep
  | up
  | down
  deriving DecidableEq, Repr

/-- applyMoves folds a sequence of MoveUp and MoveDown calls. -/
def applyMoves : List MoveStep → BasePaneModel → BasePaneModel
  | [], b => b
  | .up :: rest, b => applyMoves rest b.MoveUp
  | .down :: rest, b => applyMoves rest b.MoveDown

/-- MoveUp keeps the items and an in-bounds cursor in bounds. -/
theorem moveUp_step (b : BasePaneModel) (hne : b.items ≠ []) (h0 : 0 ≤ b.selectedIndex)
    (hlt : b.selectedIndex < b.len) :
    b.MoveUp.items = b.items ∧ 0 ≤ b.MoveUp.selectedIndex ∧ b.MoveUp.selectedIndex < b.len := by
  have hz : ¬ b.len = 0 := by
    have := len_pos_of_ne_nil b hne
    omega
  have hlen1 := len_pos_of_ne_nil b hne
  simp only [BasePaneModel.MoveUp]
  rw [if_neg hz]
  by_cases hs : b.selectedIndex > 0
  · rw [if_pos hs]
    obtain ⟨hi, hsel, _, _, _⟩ := adjust_preserves _
    refine ⟨by rw [hi], ?_, ?_⟩
    · rw [hsel]
      show 0 ≤ b.selectedIndex - 1
      omega
    · rw [hsel]
      show b.selectedIndex - 1 < b.len
      omega
  · rw [if_neg hs]
    obtain ⟨hi, hsel, _, _, _⟩ := adjust_preserves _
    refine ⟨by rw [hi], ?_, ?_⟩
    · rw [hsel]
      show 0 ≤ b.len - 1
      omega
    · rw [hsel]
      show b.len - 1 < b.len
      omega

/-- MoveDown keeps the items and an in-bounds cursor in bounds. -/
theorem moveDown_step (b : BasePaneModel) (hne : b.items ≠ []) (h0 : 0 ≤ b.selectedIndex)
    (hlt : b.selectedIndex < b.len) :
    b.MoveDown.items = b.items ∧ 0 ≤ b.MoveDown.selectedIndex ∧
      b.MoveDown.selectedIndex < b.len := by
  have hz : ¬ b.len = 0 := by
    have := len_pos_of_ne_nil b hne
    omega
  have hlen1 := len_pos_of_ne_nil b hne
  simp only [BasePaneModel.MoveDown]
  rw [if_neg hz]
  by_cases hs : b.selectedIndex < b.len - 1
  · rw [if_pos hs]
    obtain ⟨hi, hsel, _, _, _⟩ := adjust_preserves _
    refine ⟨by rw [hi], ?_, ?_⟩
    · rw [hsel]
      show 0 ≤ b.selectedIndex + 1
      omega
    · rw [hsel]
      show b.selectedIndex + 1 < b.len
      omega
  · rw [if_neg hs]
    obtain ⟨hi, hsel, _, _, _⟩ := adjust_preserves _
    refine ⟨by rw [hi], ?_, ?_⟩
    · rw [hsel]
    · rw [hsel]
      show (0:Int) < b.len
      omega

/-- Any sequence of MoveUp and MoveDown keeps the items fixed and an
in-bounds cursor in bounds. -/
theorem applyMoves_bounds (moves : List MoveStep) (b : BasePaneModel)
    (hne : b.items ≠ []) (h0 : 0 ≤ b.selectedIndex) (hlt : b.selectedIndex < b.len) :
    (applyMoves moves b).items = b.items ∧ 0 ≤ (applyMoves moves b).selectedIndex ∧
      (applyMoves moves b).selectedIndex < b.len := by
  induction moves generalizing b with
  | nil => exact ⟨rfl, h0, hlt⟩
  | cons mv rest ih =>
    cases mv with
    | up =>
      obtain ⟨hi, ha, hb'⟩ := moveUp_step b hne h0 hlt
      have hlen : b.MoveUp.len = b.len := by
        simp only [BasePaneModel.len, hi]
      obtain ⟨i1, a1, b1⟩ := ih b.MoveUp (by rw [hi]; exact hne) ha (by rw [hlen]; exact hb')
      refine ⟨?_, a1, ?_⟩
      · show (applyMoves rest b.MoveUp).items = b.items
        rw [i1, hi]
      · show (applyMoves rest b.MoveUp).selectedIndex < b.len
        rw [← hlen]
        exact b1
    | down =>
      obtain ⟨hi, ha, hb'⟩ := moveDown_step b hne h0 hlt
      have hlen : b.MoveDown.len = b.len := by
        simp only [BasePaneModel.len, hi]
      obtain ⟨i1, a1, b1⟩ := ih b.MoveDown (by rw [hi]; exact hne) ha (by rw [hlen]; exact hb')
      refine ⟨?_, a1, ?_⟩
      · show (applyMoves rest b.MoveDown).items = b.items
        rw [i1, hi]
      · show (applyMoves rest b.MoveDown).selectedIndex < b.len
        rw [← hlen]
        exact b1

/-- Claim C2: on a non-empty list with an in-bounds cursor, every
sequence of MoveDown and MoveUp calls keeps selectedIndex inside
[0, N-1]; MoveDown at index N-1 wraps to 0; MoveUp at index 0 wraps to
N-1; both calls leave an empty-list state completely unchanged. -/
theorem c2_move_wraparound (b : BasePaneModel) (moves : List MoveStep)
    (hne : b.items ≠ []) (h0 : 0 ≤ b.selectedIndex) (hlt : b.selectedIndex < b.len) :
    ((applyMoves moves b).items = b.items ∧ 0 ≤ (applyMoves moves b).selectedIndex ∧
      (applyMoves moves b).selectedIndex < b.len) ∧
    (b.selectedIndex = b.len - 1 → b.MoveDown.selectedIndex = 0) ∧
    (b.selectedIndex = 0 → b.MoveUp.selectedIndex = b.len - 1) ∧
    (∀ b' : BasePaneModel, b'.items = [] → b'.MoveDown = b' ∧ b'.MoveUp = b') := by
  refine ⟨applyMoves_bounds moves b hne h0 hlt, ?_, ?_, ?_⟩
  · intro hend
    have hz : ¬ b.len = 0 := by
      have := len_pos_of_ne_nil b hne
      omega
    simp only [BasePaneModel.MoveDown]
    rw [if_neg hz, if_neg (by omega)]
    obtain ⟨_, hsel, _, _, _⟩ := adjust_preserves _
    rw [hsel]
  · intro hstart
    have hz : ¬ b.len = 0 := by
      have := len_pos_of_ne_nil b hne
      omega
    simp only [BasePaneModel.MoveUp]
    rw [if_neg hz, if_neg (by omega)]
    obtain ⟨_, hsel, _, _, _⟩ := adjust_preserves _
    rw [hsel]
  · intro b' hnil
    have hz : b'.len = 0 := by simp [BasePaneModel.len, hnil]
    constructor
    · simp [BasePaneModel.MoveDown, hz]
    · simp [BasePaneModel.MoveUp, hz]

/-- Witness for C2 on a two-item list. -/
theorem c2_move_wraparound_witness :
    ((applyMoves [MoveStep.down] (stashInit.AddItem itemA |>.AddItem itemB)).items =
        (stashInit.AddItem itemA |>.AddItem itemB).items ∧
      0 ≤ (applyMoves [MoveStep.down] (stashInit.AddItem itemA |>.AddItem itemB)).selectedIndex ∧
      (applyMoves [MoveStep.down] (stashInit.AddItem itemA |>.AddItem itemB)).selectedIndex <
        (stashInit.AddItem itemA |>.AddItem itemB).len) ∧
    ((stashInit.AddItem itemA |>.AddItem itemB).selectedIndex =
        (stashInit.AddItem itemA |>.AddItem itemB).len - 1 →
      (stashInit.AddItem itemA |>.AddItem itemB).MoveDown.selectedIndex = 0) ∧
    ((stashInit.AddItem itemA |>.AddItem itemB).selectedIndex = 0 →
      (stashInit.AddItem itemA |>.AddItem itemB).MoveUp.selectedIndex =
        (stashInit.AddItem itemA |>.AddItem itemB).len - 1) ∧
    (∀ b' : BasePaneModel, b'.items = [] → b'.MoveDown = b' ∧ b'.MoveUp = b') :=
  c2_move_wraparound (stashInit.AddItem itemA |>.AddItem itemB) [MoveStep.down]
    (by decide) (by decide) (by decide)

/-- The C3 scenario start state: five items A..E, window size 3. -/
def c3Start : BasePaneModel :=
  ((((((stashInit.AddItem itemA).AddItem itemB).AddItem itemC).AddItem
    itemD).AddItem itemE).SetMaxDisplayItems 3)

/-- The C3 scenario end state: four MoveDown calls. -/
def c3End : BasePaneModel := c3Start.MoveDown.MoveDown.MoveDown.MoveDown

/-- Claim C3: from the five-item list [A,B,C,D,E] with maxDisplayItems 3,
selectedIndex 0 and scrollOffset 0, four MoveDown calls reach
selectedIndex 4 and scrollOffset 2, and the visible window is exactly
[C,D,E]. -/
theorem c3_scroll_scenario :
    c3Start.items = [itemA, itemB, itemC, itemD, itemE] ∧
    c3Start.maxDisplayItems = 3 ∧ c3Start.selectedIndex = 0 ∧ c3Start.scrollOffset = 0 ∧
    c3End.selectedIndex = 4 ∧ c3End.scrollOffset = 2 ∧
    c3End.GetVisibleItems = [itemC, itemD, itemE] := by
  decide

/-- Claim C8: on every reachable pane-list state, GetVisibleItems
returns at most maxDisplayItems items, and every returned item is the
stored item at some in-bounds index between scrollOffset and the list
length; no out-of-bounds access happens. -/
theorem c8_visible_window (b : BasePaneModel) (h : Reachable b) :
    ((b.GetVisibleItems.length : Int) ≤ b.maxDisplayItems) ∧
    (∀ x ∈ b.GetVisibleItems, ∃ i : Nat, b.scrollOffset ≤ (i : Int) ∧
      i < b.items.length ∧ b.items[i]? = some x) := by
  obtain ⟨hm, ho, he, hn⟩ := reachable_inv b h
  by_cases hz : b.len = 0
  · have hvis : b.GetVisibleItems = [] := by
      simp only [BasePaneModel.GetVisibleItems]
      rw [if_pos hz]
    rw [hvis]
    constructor
    · show (0:Int) ≤ b.maxDisplayItems
      omega
    · intro x hx
      simp at hx
  · have hne := ne_nil_of_len b hz
    obtain ⟨h1, h2, h3, h4⟩ := hn hne
    -- the clamped stop index and the unclamped start index
    have hstop_le : (if b.scrollOffset + b.maxDisplayItems > b.len then b.len
        else b.scrollOffset + b.maxDisplayItems) ≤ b.scrollOffset + b.maxDisplayItems := by
      split_ifs <;> omega
    have hstart_le : b.scrollOffset ≤ (if b.scrollOffset + b.maxDisplayItems > b.len then b.len
        else b.scrollOffset + b.maxDisplayItems) := by
      split_ifs <;> omega
    have hnost : ¬ (b.scrollOffset > (if b.scrollOffset + b.maxDisplayItems > b.len
        then b.len else b.scrollOffset + b.maxDisplayItems)) := not_lt.mpr hstart_le
    have hvis : b.GetVisibleItems = (b.items.drop b.scrollOffset.toNat).take
        ((if b.scrollOffset + b.maxDisplayItems > b.len then b.len
          else b.scrollOffset + b.maxDisplayItems) - b.scrollOffset).toNat := by
      simp only [BasePaneModel.GetVisibleItems]
      rw [if_neg hz, if_neg hnost]
    rw [hvis]
    constructor
    · have hlt : ((b.items.drop b.scrollOffset.toNat).take
          ((if b.scrollOffset + b.maxDisplayItems > b.len then b.len
            else b.scrollOffset + b.maxDisplayItems) - b.scrollOffset).toNat).length ≤
          ((if b.scrollOffset + b.maxDisplayItems > b.len then b.len
            else b.scrollOffset + b.maxDisplayItems) - b.scrollOffset).toNat := by
        exact (List.length_take ..).trans_le (min_le_left _ _)
      omega
    · intro x hx
      have hx' : x ∈ b.items.drop b.scrollOffset.toNat := List.mem_of_mem_take hx
      obtain ⟨j, hj⟩ := List.mem_iff_getElem?.mp hx'
      rw [List.getElem?_drop] at hj
      obtain ⟨hjlt, _⟩ := List.getElem?_eq_some_iff.mp hj
      refine ⟨b.scrollOffset.toNat + j, ?_, hjlt, hj⟩
      omega

/-- Witness for C8 at the concrete state reached by adding one item to a
fresh stash pane. -/
theorem c8_visible_window_witness :
    (((applyOp (PaneOp.add itemB) stashInit).GetVisibleItems.length : Int) ≤
      (applyOp (PaneOp.add itemB) stashInit).maxDisplayItems) ∧
    (∀ x ∈ (applyOp (PaneOp.add itemB) stashInit).GetVisibleItems, ∃ i : Nat,
      (applyOp (PaneOp.add itemB) stashInit).scrollOffset ≤ (i : Int) ∧
      i < (applyOp (PaneOp.add itemB) stashInit).items.length ∧
      (applyOp (PaneOp.add itemB) stashInit).items[i]? = some x) :=
  c8_visible_window (applyOp (PaneOp.add itemB) stashInit)
    (Reachable.step stashInit (PaneOp.add itemB)
      (Reachable.init "Stash" PaneType.StashPaneType "stash"))

/-- Claim C9: removing the only, selected item of a one-item list leaves
an empty list with selectedIndex 0 and scrollOffset 0 and a subsequent
MoveDown is a no-op; in general an in-bounds RemoveItem deletes the
item and re-clamps the cursor to the new last index exactly when it
would exceed it, and an out-of-bounds RemoveItem changes nothing. -/
theorem c9_removeItem (b : BasePaneModel) :
    (∀ it : PaneItem, b.items = [it] → b.selectedIndex = 0 →
      (b.RemoveItem 0).items = [] ∧ (b.RemoveItem 0).selectedIndex = 0 ∧
      (b.RemoveItem 0).scrollOffset = 0 ∧ (b.RemoveItem 0).MoveDown = b.RemoveItem 0) ∧
    (∀ i : Int, 0 ≤ i → i < b.len →
      (b.RemoveItem i).items = b.items.take i.toNat ++ b.items.drop (i.toNat + 1) ∧
      (b.RemoveItem i).selectedIndex =
        (if b.selectedIndex ≥ b.len - 1 ∧ b.len - 1 > 0 then b.len - 2
         else b.selectedIndex)) ∧
    (∀ i : Int, ¬ (0 ≤ i ∧ i < b.len) → b.RemoveItem i = b) := by
  have part2 : ∀ i : Int, 0 ≤ i → i < b.len →
      (b.RemoveItem i).items = b.items.take i.toNat ++ b.items.drop (i.toNat + 1) ∧
      (b.RemoveItem i).selectedIndex =
        (if b.selectedIndex ≥ b.len - 1 ∧ b.len - 1 > 0 then b.len - 2
         else b.selectedIndex) := by
    intro i h0 hlt
    have hlen' : ((b.items.take i.toNat ++ b.items.drop (i.toNat + 1)).length : Int)
        = b.len - 1 := by
      simp only [BasePaneModel.len] at hlt ⊢
      simp [List.length_take, List.length_drop]
      omega
    simp only [BasePaneModel.RemoveItem]
    rw [if_pos ⟨h0, hlt⟩]
    by_cases hcase : b.selectedIndex ≥ b.len - 1 ∧ b.len - 1 > 0
    · have hcrec : ({ b with items := b.items.take i.toNat ++ b.items.drop (i.toNat + 1) }
          : BasePaneModel).selectedIndex ≥
          ({ b with items := b.items.take i.toNat ++ b.items.drop (i.toNat + 1) }
            : BasePaneModel).len ∧
          ({ b with items := b.items.take i.toNat ++ b.items.drop (i.toNat + 1) }
            : BasePaneModel).len > 0 := by
        show b.selectedIndex ≥
            ((b.items.take i.toNat ++ b.items.drop (i.toNat + 1)).length : Int) ∧
          ((b.items.take i.toNat ++ b.items.drop (i.toNat + 1)).length : Int) > 0
        omega
      rw [if_pos hcrec, if_pos hcase]
      obtain ⟨hi, hsel, _, _, _⟩ := adjust_preserves _
      refine ⟨by rw [hi], ?_⟩
      rw [hsel]
      show ((b.items.take i.toNat ++ b.items.drop (i.toNat + 1)).length : Int) - 1 = b.len - 2
      omega
    · have hcrec : ¬ (({ b with items := b.items.take i.toNat ++ b.items.drop (i.toNat + 1) }
          : BasePaneModel).selectedIndex ≥
          ({ b with items := b.items.take i.toNat ++ b.items.drop (i.toNat + 1) }
            : BasePaneModel).len ∧
          ({ b with items := b.items.take i.toNat ++ b.items.drop (i.toNat + 1) }
            : BasePaneModel).len > 0) := by
        show ¬ (b.selectedIndex ≥
            ((b.items.take i.toNat ++ b.items.drop (i.toNat + 1)).length : Int) ∧
          ((b.items.take i.toNat ++ b.items.drop (i.toNat + 1)).length : Int) > 0)
        omega
      rw [if_neg hcrec, if_neg hcase]
      obtain ⟨hi, hsel, _, _, _⟩ := adjust_preserves _
      exact ⟨by rw [hi], by rw [hsel]⟩
  refine ⟨?_, part2, ?_⟩
  · intro it hit hsel0
    have hlen1 : b.len = 1 := by simp [BasePaneModel.len, hit]
    obtain ⟨hitems, hsel⟩ := part2 0 (le_refl 0) (by omega)
    have hitems' : (b.RemoveItem 0).items = [] := by
      rw [hitems, hit]
      simp
    have hsel' : (b.RemoveItem 0).selectedIndex = 0 := by
      rw [hsel, if_neg (by omega)]
      exact hsel0
    refine ⟨hitems', hsel', ?_, ?_⟩
    · -- the final adjustment on the now-empty list zeroes the offset
      have hz0 : ¬ (0:Int) ≥ 1 := by omega
      simp only [BasePaneModel.RemoveItem]
      rw [if_pos ⟨le_refl 0, by omega⟩]
      split_ifs with hc
      · exfalso
        have : ((b.items.take (Int.toNat 0) ++ b.items.drop (Int.toNat 0 + 1)).length : Int) = 0 := by
          rw [hit]
          simp
        simp only [BasePaneModel.len] at hc
        omega
      · rw [adjust_empty _ (by rw [hit]; simp [show Int.toNat 0 = 0 from rfl])]
    · have hz : (b.RemoveItem 0).len = 0 := by
        simp [BasePaneModel.len, hitems']
      simp [BasePaneModel.MoveDown, hz]
  · intro i hb
    simp [BasePaneModel.RemoveItem, hb]

/-- Witness for C9 on a one-item pane. -/
theorem c9_removeItem_witness :
    (((stashInit.AddItem itemA).RemoveItem 0).items = [] ∧
      ((stashInit.AddItem itemA).RemoveItem 0).selectedIndex = 0 ∧
      ((stashInit.AddItem itemA).RemoveItem 0).scrollOffset = 0 ∧
      ((stashInit.AddItem itemA).RemoveItem 0).MoveDown =
        (stashInit.AddItem itemA).RemoveItem 0) ∧
    (((stashInit.AddItem itemA).RemoveItem 0).items =
        (stashInit.AddItem itemA).items.take (Int.toNat 0) ++
          (stashInit.AddItem itemA).items.drop (Int.toNat 0 + 1) ∧
      ((stashInit.AddItem itemA).RemoveItem 0).selectedIndex =
        (if (stashInit.AddItem itemA).selectedIndex ≥ (stashInit.AddItem itemA).len - 1 ∧
            (stashInit.AddItem itemA).len - 1 > 0 then (stashInit.AddItem itemA).len - 2
         else (stashInit.AddItem itemA).selectedIndex)) ∧
    ((stashInit.AddItem itemA).RemoveItem 7 = stashInit.AddItem itemA) :=
  ⟨(c9_removeItem (stashInit.AddItem itemA)).1 itemA (by decide) (by decide),
   (c9_removeItem (stashInit.AddItem itemA)).2.1 0 (by decide) (by decide),
   (c9_removeItem (stashInit.AddItem itemA)).2.2 7 (by decide)⟩

/-- Claim C10: on every reachable pane-list state, GetSelectedItem is
none exactly when the item list is empty, and on a non-empty list it is
some of the stored item at selectedIndex; the lookup is always in
bounds. -/
theorem c10_getSelectedItem (b : BasePaneModel) (h : Reachable b) :
    (b.GetSelectedItem = none ↔ b.items = []) ∧
    (b.items ≠ [] → b.GetSelectedItem = b.items[b.selectedIndex.toNat]? ∧
      (b.items[b.selectedIndex.toNat]?).isSome = true) := by
  obtain ⟨hm, ho, he, hn⟩ := reachable_inv b h
  by_cases hne : b.items = []
  · refine ⟨⟨fun _ => hne, fun _ => ?_⟩, fun hc => absurd hne hc⟩
    simp [BasePaneModel.GetSelectedItem, BasePaneModel.len, hne]
  · obtain ⟨h1, h2, h3, h4⟩ := hn hne
    have hlen1 := len_pos_of_ne_nil b hne
    have hcond : ¬ (b.len = 0 ∨ b.selectedIndex ≥ b.len ∨ b.selectedIndex < 0) := by
      push_neg
      exact ⟨by omega, by omega, by omega⟩
    have hval : b.GetSelectedItem = b.items[b.selectedIndex.toNat]? := by
      simp only [BasePaneModel.GetSelectedItem]
      rw [if_neg hcond]
    have hidx : b.selectedIndex.toNat < b.items.length := by
      simp only [BasePaneModel.len] at h2
      omega
    have hsome : (b.items[b.selectedIndex.toNat]?).isSome = true := by
      rw [List.getElem?_eq_getElem hidx]
      rfl
    refine ⟨⟨fun hnone => ?_, fun hc => absurd hc hne⟩, fun _ => ⟨hval, hsome⟩⟩
    rw [hval] at hnone
    rw [hnone] at hsome
    simp at hsome

/-- Witness for C10 at the concrete state reached by adding one item to
a fresh stash pane. -/
theorem c10_getSelectedItem_witness :
    ((applyOp (PaneOp.add itemC) stashInit).GetSelectedItem = none ↔
      (applyOp (PaneOp.add itemC) stashInit).items = []) ∧
    ((applyOp (PaneOp.add itemC) stashInit).items ≠ [] →
      (applyOp (PaneOp.add itemC) stashInit).GetSelectedItem =
        (applyOp (PaneOp.add itemC) stashInit).items[(applyOp (PaneOp.add itemC)
          stashInit).selectedIndex.toNat]? ∧
      ((applyOp (PaneOp.add itemC) stashInit).items[(applyOp (PaneOp.add itemC)
        stashInit).selectedIndex.toNat]?).isSome = true) :=
  c10_getSelectedItem (applyOp (PaneOp.add itemC) stashInit)
    (Reachable.step stashInit (PaneOp.add itemC)
      (Reachable.init "Stash" PaneType.StashPaneType "stash"))

/-- The Filter loop body appends matching items in order; it is the
standard list filter. -/
theorem filter_foldl (p : PaneItem → Bool) (l : List PaneItem) (acc : List PaneItem) :
    l.foldl (fun filtered item => if p item then filtered ++ [item] else filtered) acc
      = acc ++ l.filter p := by
  induction l generalizing acc with
  | nil => simp
  | cons x t ih =>
    by_cases hp : p x
    · simp [List.foldl_cons, hp, ih, List.filter_cons]
    · simp [List.foldl_cons, hp, ih, List.filter_cons]

/-- The three-branch list used by the C7 filtering example. -/
def c7List : BasePaneModel :=
  ((stashInit.AddItem (mkItem "Main" "")).AddItem
    (mkItem "feature/auth" "")).AddItem (mkItem "release" "")

/-- Claim C7: filtering with the empty query returns the stored items
unchanged and in order; filtering with a non-empty query returns
exactly the stored items, in stored order, whose display or value
contains the query case-insensitively (the stored state itself is not
touched: Filter only returns a list); on the list
[Main, feature/auth, release] the query FEAT selects feature/auth. -/
theorem c7_filter (b : BasePaneModel) :
    b.Filter "" = b.items ∧
    (∀ query : String, query ≠ "" →
      b.Filter query = b.items.filter
        (fun item => containsIgnoreCase item.Display query ||
          containsIgnoreCase item.Value query)) ∧
    c7List.Filter "FEAT" = [mkItem "feature/auth" ""] := by
  refine ⟨?_, ?_, ?_⟩
  · simp [BasePaneModel.Filter]
  · intro query hq
    simp only [BasePaneModel.Filter]
    rw [if_neg hq]
    rw [filter_foldl]
    simp
  · decide

/-- Witness for C7 instantiating the non-empty-query clause at FEAT. -/
theorem c7_filter_witness :
    c7List.Filter "FEAT" = c7List.items.filter
      (fun item => containsIgnoreCase item.Display "FEAT" ||
        containsIgnoreCase item.Value "FEAT") :=
  (c7_filter c7List).2.1 "FEAT" (by decide)

/-
  Embedding of the StashPane update loop from src/panes/stash.go.
-/

/-- The commands a stash pane Update can hand back to the runtime; each
constructor stands for one of the tea.Cmd closures the Go methods
return (all of them non-nil functions). -/
inductive StashCmd
  | refreshCmd
  | createStash (includeUntracked : Bool)
  | applyStash (ref : String)
  | popStash (ref : String)
  | dropStash (ref : String)
  | showStash (ref : String)
  | clearAllStashes
  | createBranchFromStash (ref : String)
  deriving DecidableEq, Repr

/-- The message kinds the stash pane Update switch distinguishes: key
presses, StashUpdateMsg completions, and everything else (default). -/
inductive StashMsg
  | key (k : String)
  | stashUpdate (stashes : List String)
  | other
  deriving DecidableEq, Repr

/-- HandleAction from src/panes/stash.go: action names dispatch to the
corresponding command; item-directed actions return the nil command
when nothing is selected. -/
def HandleAction (s : BasePaneModel) (action : String) : Option StashCmd :=
  let selectedItem := s.GetSelectedItem
  if action = "create_stash" then some (.createStash false)
  else if action = "create_stash_include_untracked" then some (.createStash true)
  else if action = "apply_stash" then
    match selectedItem with
    | none => none
    | some it => some (.applyStash it.Value)
  else if action = "pop_stash" then
    match selectedItem with
    | none => none
    | some it => some (.popStash it.Value)
  else if action = "drop_stash" then
    match selectedItem with
    | none => none
    | some it => some (.dropStash it.Value)
  else if action = "show_stash" then
    match selectedItem with
    | none => none
    | some it => some (.showStash it.Value)
  else if action = "clear_all_stashes" then some .clearAllStashes
  else if action = "create_branch_from_stash" then
    match selectedItem with
    | none => none
    | some it => some (.createBranchFromStash it.Value)
  else none

/-- Refresh from src/panes/stash.go: sets the loading flag and returns
the command whose completion will deliver a StashUpdateMsg. -/
def StashRefresh (s : BasePaneModel) : BasePaneModel × StashCmd :=
  (s.SetLoading true, .refreshCmd)

/-- The placeholder item shown when there are no stashes. -/
def emptyStashItem : PaneItem :=
  { Display := "No stashed changes", Value := "", Icon := "", Typ := "empty",
    Selected := false, Color := "" }

/-- goIndexOfChar models strings.Index for a one-character pattern: the
index of its first occurrence, or -1 when absent.  The stash reference
prefix sliced with it is ASCII, where byte and character indices agree. -/
def goIndexOfChar (c : Char) : List Char → Int
  | [] => -1
  | d :: t =>
    if d == c then 0
    else
      let r := goIndexOfChar c t
      if r < 0 then -1 else r + 1

/-- mkStashItem builds the list item for stash number i: the reference
defaults to the Sprintf text stash@ i and is sliced out of the line
when the line starts with the stash@ prefix and closes its brace. -/
def mkStashItem (i : Nat) (stashLine : String) : PaneItem :=
  let fallback := "stash@\x7b" ++ toString i ++ "\x7d"
  let stashRef :=
    if isPrefixList ("stash@\x7b".toList) stashLine.toList then
      let endIndex := goIndexOfChar '\x7d' stashLine.toList
      if endIndex > 0 then String.mk (stashLine.toList.take (endIndex + 1).toNat)
      else fallback
    else fallback
  { Display := stashLine, Value := stashRef, Icon := "📦", Typ := "stash",
    Selected := false, Color := "" }

/-- updateFromStashMsg from src/panes/stash.go: stop loading, clear, and
repopulate from the completion message (placeholder item when empty). -/
def updateFromStashMsg (s : BasePaneModel) (stashes : List String) : BasePaneModel :=
  let s1 := ((s.SetLoading false).Clear)
  if stashes.length = 0 then s1.AddItem emptyStashItem
  else stashes.enum.foldl (fun acc p => acc.AddItem (mkStashItem p.1 p.2)) s1

/-- The item list one stash completion message produces. -/
def parseStashItems (stashes : List String) : List PaneItem :=
  if stashes.length = 0 then [emptyStashItem]
  else stashes.enum.map (fun p => mkStashItem p.1 p.2)

/-- Update from src/panes/stash.go (StashPane): key messages are only
consulted when the pane is active; stash completion messages are
consumed unconditionally; all other messages fall through unchanged. -/
def StashUpdate (s : BasePaneModel) : StashMsg → BasePaneModel × Option StashCmd
  | .key k =>
    if s.active = false then (s, none)
    else if k = "j" ∨ k = "down" then (s.MoveDown, none)
    else if k = "k" ∨ k = "up" then (s.MoveUp, none)
    else if k = "g" then (s.MoveToTop, none)
    else if k = "G" then (s.MoveToBottom, none)
    else if k = "enter" then (s, HandleAction s "apply_stash")
    else if k = "p" then (s, HandleAction s "pop_stash")
    else if k = "d" then (s, HandleAction s "drop_stash")
    else if k = "s" then (s, HandleAction s "create_stash")
    else if k = "S" then (s, HandleAction s "create_stash_include_untracked")
    else if k = "r" then ((StashRefresh s).1, some (StashRefresh s).2)
    else if k = "v" then (s, HandleAction s "show_stash")
    else if k = "D" then (s, HandleAction s "clear_all_stashes")
    else if k = "b" then (s, HandleAction s "create_branch_from_stash")
    else (s, none)
  | .stashUpdate stashes => (updateFromStashMsg s stashes, none)
  | .other => (s, none)

/-- The AddItem loop only appends to items and touches nothing else. -/
theorem addItem_foldl (l : List (Nat × String)) (s : BasePaneModel) :
    (l.foldl (fun acc p => acc.AddItem (mkStashItem p.1 p.2)) s).items
        = s.items ++ l.map (fun p => mkStashItem p.1 p.2) ∧
    (l.foldl (fun acc p => acc.AddItem (mkStashItem p.1 p.2)) s).loading = s.loading ∧
    (l.foldl (fun acc p => acc.AddItem (mkStashItem p.1 p.2)) s).active = s.active := by
  induction l generalizing s with
  | nil => simp
  | cons x t ih =>
    obtain ⟨hi, hl, ha⟩ := ih (s.AddItem (mkStashItem x.1 x.2))
    refine ⟨?_, ?_, ?_⟩
    · rw [List.foldl_cons, hi]
      simp [BasePaneModel.AddItem]
    · rw [List.foldl_cons, hl]
      rfl
    · rw [List.foldl_cons, ha]
      rfl

/-- Consuming a stash completion message replaces the items with the
parsed list, clears the loading flag, and keeps the active flag. -/
theorem updateFromStashMsg_spec (s : BasePaneModel) (stashes : List String) :
    (updateFromStashMsg s stashes).items = parseStashItems stashes ∧
    (updateFromStashMsg s stashes).loading = false ∧
    (updateFromStashMsg s stashes).active = s.active := by
  simp only [updateFromStashMsg, parseStashItems]
  by_cases hz : stashes.length = 0
  · rw [if_pos hz, if_pos hz]
    refine ⟨?_, rfl, rfl⟩
    show ((s.SetLoading false).Clear.items) ++ [emptyStashItem] = [emptyStashItem]
    rfl
  · rw [if_neg hz, if_neg hz]
    obtain ⟨hi, hl, ha⟩ := addItem_foldl stashes.enum ((s.SetLoading false).Clear)
    refine ⟨?_, ?_, ?_⟩
    · rw [hi]
      rfl
    · rw [hl]
      rfl
    · rw [ha]
      rfl

/-- Claim C6: a refresh sets the pane's loading flag; if the pane is
then deactivated (the active pane changed) before the completion
message arrives, consuming the completion still replaces the original
pane's items with the parsed result and clears its loading flag even
though the pane is inactive; a key message, in contrast, leaves an
inactive pane completely unchanged and yields no command. -/
theorem c6_background_refresh (s : BasePaneModel) (stashes : List String) (k : String) :
    (StashRefresh s).1.loading = true ∧
    (StashUpdate ((StashRefresh s).1.SetActive false)
      (StashMsg.stashUpdate stashes)).1.items = parseStashItems stashes ∧
    (StashUpdate ((StashRefresh s).1.SetActive false)
      (StashMsg.stashUpdate stashes)).1.loading = false ∧
    (StashUpdate ((StashRefresh s).1.SetActive false)
      (StashMsg.stashUpdate stashes)).1.active = false ∧
    (StashUpdate ((StashRefresh s).1.SetActive false)
      (StashMsg.stashUpdate stashes)).2 = none ∧
    StashUpdate (s.SetActive false) (StashMsg.key k) = (s.SetActive false, none) := by
  obtain ⟨hi, hl, ha⟩ :=
    updateFromStashMsg_spec ((StashRefresh s).1.SetActive false) stashes
  refine ⟨rfl, hi, hl, ?_, rfl, ?_⟩
  · show (updateFromStashMsg ((StashRefresh s).1.SetActive false) stashes).active = false
    rw [ha]
    rfl
  · rfl

/-
  Embedding of the application router pane-switching of
  src/unnamed/part_002 (the five-pane Model; setActivePane, nextPane and
  prevPane are textually identical in src/unnamed/part_003).
-/

namespace Router

/-- The Go loop body of setActivePane: pane.SetActive(i == index) for
every pane in order, with j the running pane index.  Only the Active
flags are modeled at the router level, since they are the only pane
field the router assigns here. -/
def setActiveFlags (index : Int) : Nat → List Bool → List Bool
  | _, [] => []
  | j, _ :: t => decide ((j : Int) = index) :: setActiveFlags index (j + 1) t

/-- The router state: the panes, represented by their Active flags, and
the active pane index. -/
structure RModel where
  panesActive : List Bool
  activePane : Int
  deriving DecidableEq, Repr

/-- setActivePane from src/unnamed/part_002: bounds-checked; on success
stores the index and reassigns every Active flag. -/
def setActivePane (m : RModel) (index : Int) : RModel :=
  if 0 ≤ index ∧ index < (m.panesActive.length : Int) then
    { activePane := index, panesActive := setActiveFlags index 0 m.panesActive }
  else m

/-- nextPane from src/unnamed/part_002; the Go % operator on int is
truncated division remainder (Int.tmod). -/
def nextPane (m : RModel) : RModel :=
  setActivePane m ((m.activePane + 1).tmod (m.panesActive.length : Int))

/-- prevPane from src/unnamed/part_002. -/
def prevPane (m : RModel) : RModel :=
  setActivePane m ((m.activePane - 1 + (m.panesActive.length : Int)).tmod
    (m.panesActive.length : Int))

/-- One pane-switch call. -/
inductive ROp
  | set (index : Int)
  | next
  | prev
  deriving DecidableEq, Repr

/-- applyROp dispatches one pane-switch call. -/
def applyROp (m : RModel) : ROp → RModel
  | .set i => setActivePane m i
  | .next => nextPane m
  | .prev => prevPane m

/-- applyROps folds a call sequence, first call first. -/
def applyROps (m : RModel) : List ROp → RModel
  | [] => m
  | op :: rest => applyROps (applyROp m op) rest

/-- countActive counts the set Active flags. -/
def countActive (m : RModel) : Nat := (m.panesActive.filter id).length

/-- A call that always selects a pane on an n-pane router: nextPane,
prevPane, or setActivePane with an in-bounds index. -/
def effective (n : Nat) : ROp → Prop
  | .set i => 0 ≤ i ∧ i < (n : Int)
  | .next => True
  | .prev => True

/-- The five-pane router built by NewModel in src/unnamed/part_002:
every pane is constructed with Active false and the active index starts
at 1 (the files pane); construction assigns no Active flag. -/
def initialModel : RModel :=
  { panesActive := [false, false, false, false, false], activePane := 1 }

/-- setActiveFlags preserves the pane count. -/
theorem setActiveFlags_length (index : Int) (l : List Bool) (j : Nat) :
    (setActiveFlags index j l).length = l.length := by
  induction l generalizing j with
  | nil => rfl
  | cons x t ih => simp [setActiveFlags, ih]

/-- setActiveFlags sets exactly the flag at the selected offset. -/
theorem setActiveFlags_get (index : Int) (l : List Bool) (j : Nat) (i : Nat)
    (h : i < (setActiveFlags index j l).length) :
    (setActiveFlags index j l).get ⟨i, h⟩ = decide (((j + i : Nat) : Int) = index) := by
  induction l generalizing j i with
  | nil => simp [setActiveFlags] at h
  | cons x t ih =>
    cases i with
    | zero => simp [setActiveFlags]
    | succ i' =>
      have h' : i' < (setActiveFlags index (j + 1) t).length := by
        simpa [setActiveFlags] using h
      have := ih (j + 1) i' h'
      simp only [setActiveFlags, List.get_cons_succ]
      rw [this]
      rw [decide_eq_decide]
      constructor <;> intro hx <;> (push_cast at hx ⊢; omega)

/-- setActiveFlags sets exactly one flag when the index is in range and
none otherwise. -/
theorem setActiveFlags_count (index : Int) (l : List Bool) (j : Nat) :
    ((setActiveFlags index j l).filter id).length =
      if (j : Int) ≤ index ∧ index < (j : Int) + (l.length : Int) then 1 else 0 := by
  induction l generalizing j with
  | nil =>
    rw [if_neg (by simp only [List.length_nil]; push_cast; omega)]
    rfl
  | cons x t ih =>
    simp only [setActiveFlags, List.filter_cons, List.length_cons]
    by_cases hx : (j : Int) = index
    · rw [if_pos (by simp [hx])]
      have hrest : ((setActiveFlags index (j + 1) t).filter id).length = 0 := by
        rw [ih (j + 1), if_neg (by push_cast; omega)]
      simp only [List.length_cons, hrest]
      rw [if_pos (by push_cast; omega)]
    · rw [if_neg (by simp [hx])]
      rw [ih (j + 1)]
      by_cases hin : (j : Int) + 1 ≤ index ∧ index < (j : Int) + 1 + (t.length : Int)
      · rw [if_pos (by push_cast at hin ⊢; omega), if_pos (by push_cast at hin ⊢; omega)]
      · rw [if_neg (by push_cast at hin ⊢; omega), if_neg (by push_cast at hin ⊢; omega)]

/-- An in-bounds setActivePane leaves exactly one pane active. -/
theorem setActivePane_count (m : RModel) (i : Int) (h0 : 0 ≤ i)
    (hlt : i < (m.panesActive.length : Int)) : countActive (setActivePane m i) = 1 := by
  simp only [setActivePane, countActive]
  rw [if_pos ⟨h0, hlt⟩]
  show ((setActiveFlags i 0 m.panesActive).filter id).length = 1
  rw [setActiveFlags_count]
  rw [if_pos (by push_cast; omega)]

/-- Every pane-switch call preserves the pane count. -/
theorem applyROp_length (m : RModel) (op : ROp) :
    (applyROp m op).panesActive.length = m.panesActive.length := by
  have hset : ∀ i : Int, (setActivePane m i).panesActive.length = m.panesActive.length := by
    intro i
    simp only [setActivePane]
    split_ifs
    · exact setActiveFlags_length i m.panesActive 0
    · rfl
  cases op with
  | set i => exact hset i
  | next => exact hset _
  | prev => exact hset _

/-- Every pane-switch call keeps the active index nonnegative. -/
theorem applyROp_nonneg (m : RModel) (op : ROp) (h : 0 ≤ m.activePane) :
    0 ≤ (applyROp m op).activePane := by
  have hset : ∀ i : Int, 0 ≤ (setActivePane m i).activePane := by
    intro i
    simp only [setActivePane]
    split_ifs with hc
    · exact hc.1
    · exact h
  cases op with
  | set i => exact hset i
  | next => exact hset _
  | prev => exact hset _

/-- An effective call from a nonnegative active index leaves exactly one
pane active. -/
theorem applyROp_effective_count (m : RModel) (op : ROp) (h : 0 ≤ m.activePane)
    (heff : effective m.panesActive.length op) (hpos : 0 < m.panesActive.length) :
    countActive (applyROp m op) = 1 := by
  cases op with
  | set i => exact setActivePane_count m i heff.1 heff.2
  | next =>
    show countActive (nextPane m) = 1
    simp only [nextPane]
    have hb : (0:Int) < (m.panesActive.length : Int) := by
      omega
    have hnext : (m.activePane + 1).tmod (m.panesActive.length : Int) =
        (m.activePane + 1) % (m.panesActive.length : Int) :=
      Int.tmod_eq_emod (by omega) (by omega)
    refine setActivePane_count m _ ?_ ?_
    · rw [hnext]
      exact Int.emod_nonneg _ (by omega)
    · rw [hnext]
      exact Int.emod_lt_of_pos _ hb
  | prev =>
    show countActive (prevPane m) = 1
    simp only [prevPane]
    have hb : (0:Int) < (m.panesActive.length : Int) := by
      omega
    have hmd : (m.activePane - 1 + (m.panesActive.length : Int)).tmod
        (m.panesActive.length : Int) =
        (m.activePane - 1 + (m.panesActive.length : Int)) % (m.panesActive.length : Int) :=
      Int.tmod_eq_emod (by omega) (by omega)
    refine setActivePane_count m _ ?_ ?_
    · rw [hmd]
      exact Int.emod_nonneg _ (by omega)
    · rw [hmd]
      exact Int.emod_lt_of_pos _ hb

/-- Every pane-switch call preserves the exactly-one-active property. -/
theorem applyROp_preserves_one (m : RModel) (op : ROp) (h : countActive m = 1) :
    countActive (applyROp m op) = 1 := by
  have hset : ∀ i : Int, countActive (setActivePane m i) = 1 := by
    intro i
    by_cases hc : 0 ≤ i ∧ i < (m.panesActive.length : Int)
    · exact setActivePane_count m i hc.1 hc.2
    · show countActive (setActivePane m i) = 1
      simp only [setActivePane]
      rw [if_neg hc]
      exact h
  cases op with
  | set i => exact hset i
  | next => exact hset _
  | prev => exact hset _

/-- A call sequence preserves the exactly-one-active property. -/
theorem applyROps_preserves_one (ops : List ROp) (m : RModel) (h : countActive m = 1) :
    countActive (applyROps m ops) = 1 := by
  induction ops generalizing m with
  | nil => exact h
  | cons op rest ih => exact ih (applyROp m op) (applyROp_preserves_one m op h)

/-- After a call sequence with at least one effective call, exactly one
pane is active. -/
theorem applyROps_one_of_effective (ops : List ROp) (m : RModel)
    (hlen : 0 < m.panesActive.length) (h : 0 ≤ m.activePane)
    (hex : ∃ op ∈ ops, effective m.panesActive.length op) :
    countActive (applyROps m ops) = 1 := by
  induction ops generalizing m with
  | nil =>
    obtain ⟨op, hmem, _⟩ := hex
    simp at hmem
  | cons op rest ih =>
    obtain ⟨op', hmem, heff'⟩ := hex
    rcases List.mem_cons.mp hmem with rfl | hmem'
    · have h1 := applyROp_effective_count m op' h heff' hlen
      exact applyROps_preserves_one rest (applyROp m op') h1
    · refine ih (applyROp m op) ?_ (applyROp_nonneg m op h) ?_
      · rw [applyROp_length]
        exact hlen
      · refine ⟨op', hmem', ?_⟩
        rw [applyROp_length]
        exact heff'

/-- Counterexample to claim C5 as stated: NewModel constructs all five
panes with Active false, so after the single (out-of-bounds, hence
ignored) call setActivePane(7) no pane is active at all — "after any
sequence of setActivePane, nextPane, prevPane calls exactly one pane is
active" fails. -/
theorem c5_counterexample :
    countActive (applyROps initialModel [ROp.set 7]) = 0 ∧
    ¬ countActive (applyROps initialModel [ROp.set 7]) = 1 := by
  decide

/-- Claim C5 (amended): on a five-pane router, setActivePane(i) with
0 ≤ i < 5 stores i and sets exactly pane i's Active flag, regardless of
the prior state; an out-of-bounds index changes nothing; and any call
sequence containing at least one nextPane, prevPane, or in-bounds
setActivePane (from a nonnegative active index, as construction
guarantees) ends with exactly one pane active.  Before the first such
call nothing is active, since construction sets no Active flag. -/
theorem c5_setActivePane (m : RModel) (i : Int) (hlen : m.panesActive.length = 5) :
    (0 ≤ i ∧ i < 5 →
      (setActivePane m i).activePane = i ∧
      (setActivePane m i).panesActive.length = 5 ∧
      ∀ (j : Nat) (hj : j < (setActivePane m i).panesActive.length),
        (setActivePane m i).panesActive.get ⟨j, hj⟩ = decide ((j : Int) = i)) ∧
    (¬ (0 ≤ i ∧ i < 5) → setActivePane m i = m) ∧
    (∀ ops : List ROp, 0 ≤ m.activePane → (∃ op ∈ ops, effective 5 op) →
      countActive (applyROps m ops) = 1) := by
  refine ⟨?_, ?_, ?_⟩
  · intro hc
    have hc' : 0 ≤ i ∧ i < (m.panesActive.length : Int) := by
      rw [hlen]
      push_cast
      omega
    simp only [setActivePane]
    rw [if_pos hc']
    refine ⟨rfl, ?_, ?_⟩
    · show (setActiveFlags i 0 m.panesActive).length = 5
      rw [setActiveFlags_length, hlen]
    · intro j hj
      have := setActiveFlags_get i m.panesActive 0 j (by simpa using hj)
      simp only [Nat.zero_add] at this
      exact this
  · intro hc
    simp only [setActivePane]
    rw [if_neg (by rw [hlen]; push_cast; omega)]
  · intro ops hnn hex
    refine applyROps_one_of_effective ops m (by omega) hnn ?_
    rw [hlen]
    exact hex

/-- Witness for C5 on the freshly constructed router: setActivePane 2
activates exactly pane 2, setActivePane 9 is ignored, and the sequence
[setActivePane 9, nextPane] leaves exactly one pane active. -/
theorem c5_setActivePane_witness :
    ((setActivePane initialModel 2).activePane = 2 ∧
      (setActivePane initialModel 2).panesActive.length = 5 ∧
      ∀ (j : Nat) (hj : j < (setActivePane initialModel 2).panesActive.length),
        (setActivePane initialModel 2).panesActive.get ⟨j, hj⟩ = decide ((j : Int) = 2)) ∧
    (setActivePane initialModel 9 = initialModel) ∧
    (countActive (applyROps initialModel [ROp.set 9, ROp.next]) = 1) :=
  ⟨(c5_setActivePane initialModel 2 rfl).1 (by decide),
   (c5_setActivePane initialModel 9 rfl).2.1 (by decide),
   (c5_setActivePane initialModel 9 rfl).2.2 [ROp.set 9, ROp.next] (by decide)
     ⟨ROp.next, by decide, trivial⟩⟩

end Router

/-
  Embedding of the key routing of src/unnamed/part_003 (the four-pane
  Model with the panels/details focus layer).
-/

namespace App3

/-- Focus from src/unnamed/part_003. -/
inductive Focus
  | FocusLeftPanes
  | FocusDetails
  deriving DecidableEq, Repr

/-- DetailsPane from src/unnamed/part_003. -/
structure DetailsPane where
  selectedLine : Int
  scrollPos : Int
  lines : List String
  deriving DecidableEq, Repr

/-- Reset from src/unnamed/part_003. -/
def DetailsPane.Reset (d : DetailsPane) : DetailsPane :=
  { d with selectedLine := 0, scrollPos := 0 }

/-- DetailsPane.MoveDown from src/unnamed/part_003. -/
def DetailsPane.MoveDown (d : DetailsPane) : DetailsPane :=
  if d.lines.length = 0 then d
  else if d.selectedLine < (d.lines.length : Int) - 1 then
    { d with selectedLine := d.selectedLine + 1 }
  else d

/-- DetailsPane.MoveUp from src/unnamed/part_003. -/
def DetailsPane.MoveUp (d : DetailsPane) : DetailsPane :=
  if d.selectedLine > 0 then { d with selectedLine := d.selectedLine - 1 } else d

/-- DetailsPane.MoveToTop from src/unnamed/part_003. -/
def DetailsPane.MoveToTop (d : DetailsPane) : DetailsPane :=
  { d with selectedLine := 0, scrollPos := 0 }

/-- DetailsPane.MoveToBottom from src/unnamed/part_003. -/
def DetailsPane.MoveToBottom (d : DetailsPane) : DetailsPane :=
  if d.lines.length > 0 then { d with selectedLine := (d.lines.length : Int) - 1 } else d

/-- DetailsPane.AdjustScroll from src/unnamed/part_003. -/
def DetailsPane.AdjustScroll (d : DetailsPane) (maxLines : Int) : DetailsPane :=
  let m := if maxLines < 1 then 1 else maxLines
  let d1 := if d.selectedLine ≥ d.scrollPos + m then
      { d with scrollPos := d.selectedLine - m + 1 } else d
  if d1.selectedLine < d1.scrollPos then { d1 with scrollPos := d1.selectedLine } else d1

/-- DetailsPane.ScrollDown from src/unnamed/part_003. -/
def DetailsPane.ScrollDown (d : DetailsPane) (maxLines : Int) : DetailsPane :=
  if d.lines.length > 0 then
    let maxScroll0 := (d.lines.length : Int) - maxLines
    let maxScroll := if maxScroll0 < 0 then 0 else maxScroll0
    if d.scrollPos < maxScroll then { d with scrollPos := d.scrollPos + 1 } else d
  else d

/-- DetailsPane.ScrollUp from src/unnamed/part_003. -/
def DetailsPane.ScrollUp (d : DetailsPane) : DetailsPane :=
  if d.scrollPos > 0 then { d with scrollPos := d.scrollPos - 1 } else d

/-- The commands this router returns, with the Go nil command explicit.
bubbletea's tea.Batch discards nil commands and returns the nil command
when none remain, so the bare tea.Batch() the navigation branches
return is nil; tea.Quit and each pane's Refresh command are non-nil
functions. -/
inductive GoCmd
  | nilCmd
  | quit
  | refreshOne (i : Nat)
  | batchOf (cs : List GoCmd)

/-- Whether a command is Go nil. -/
def GoCmd.isNil : GoCmd → Bool
  | .nilCmd => true
  | _ => false

/-- goBatch models tea.Batch: drop nil commands; none left gives nil,
one gives it back, several give a batch. -/
def goBatch (cs : List GoCmd) : GoCmd :=
  match cs.filter (fun c => !c.isNil) with
  | [] => .nilCmd
  | [c] => c
  | c :: rest => .batchOf (c :: rest)

/-- The Model of src/unnamed/part_003.  Panes appear as their Active
flags, the only pane field the router assigns synchronously; forwarding
a key to the active pane's own Update is recorded in the route result
(the pane update itself is modeled separately, see StashUpdate). -/
structure AppModel where
  panesActive : List Bool
  activePane : Int
  width : Int
  height : Int
  quitting : Bool
  filterMode : Bool
  filterText : String
  details : DetailsPane
  focus : Focus

/-- setActivePane from src/unnamed/part_003 (same text as part_002). -/
def setActivePane (m : AppModel) (index : Int) : AppModel :=
  if 0 ≤ index ∧ index < (m.panesActive.length : Int) then
    { m with activePane := index,
             panesActive := Router.setActiveFlags index 0 m.panesActive }
  else m

/-- nextPane from src/unnamed/part_003. -/
def nextPane (m : AppModel) : AppModel :=
  setActivePane m ((m.activePane + 1).tmod (m.panesActive.length : Int))

/-- prevPane from src/unnamed/part_003. -/
def prevPane (m : AppModel) : AppModel :=
  setActivePane m ((m.activePane - 1 + (m.panesActive.length : Int)).tmod
    (m.panesActive.length : Int))

/-- toggleFocus from src/unnamed/part_003. -/
def toggleFocus (m : AppModel) : AppModel :=
  if m.focus = Focus.FocusLeftPanes then
    { m with focus := Focus.FocusDetails, details := m.details.Reset }
  else { m with focus := Focus.FocusLeftPanes }

/-- handlePaneNavigation from src/unnamed/part_003: the navigation runs
only with focus on the left panes, and the returned tea.Batch() is nil. -/
def handlePaneNavigation (m : AppModel) (navFunc : AppModel → AppModel) : AppModel × GoCmd :=
  if m.focus = Focus.FocusLeftPanes then (navFunc m, goBatch [])
  else (m, goBatch [])

/-- handleVerticalNavigation from src/unnamed/part_003. -/
def handleVerticalNavigation (m : AppModel) (down : Bool) : AppModel × GoCmd :=
  if m.focus = Focus.FocusDetails then
    let d := if down then m.details.MoveDown else m.details.MoveUp
    ({ m with details := d.AdjustScroll (m.height - 5) }, goBatch [])
  else if ¬ m.activePane = 3 then
    let d := if down then m.details.ScrollDown (m.height - 5) else m.details.ScrollUp
    ({ m with details := d }, goBatch [])
  else (m, .nilCmd)

/-- handleJumpToTop from src/unnamed/part_003. -/
def handleJumpToTop (m : AppModel) : AppModel × GoCmd :=
  if m.focus = Focus.FocusDetails then
    ({ m with details := m.details.MoveToTop }, goBatch [])
  else (m, .nilCmd)

/-- handleJumpToBottom from src/unnamed/part_003. -/
def handleJumpToBottom (m : AppModel) : AppModel × GoCmd :=
  if m.focus = Focus.FocusDetails then
    ({ m with details := (m.details.MoveToBottom).AdjustScroll (m.height - 5) }, goBatch [])
  else (m, .nilCmd)

/-- refreshAll from src/unnamed/part_003: batches one non-nil Refresh
command per pane (each pane Refresh in the repository returns a non-nil
closure; its loading side effect lives in the pane model, not here). -/
def refreshAll (m : AppModel) : AppModel × GoCmd :=
  (m, goBatch ((List.range m.panesActive.length).map GoCmd.refreshOne))

/-- handleKeyMsg from src/unnamed/part_003, switch arms in source
order; unmatched keys return the nil command. -/
def handleKeyMsg (m : AppModel) (k : String) : AppModel × GoCmd :=
  if k = "q" ∨ k = "ctrl+c" then ({ m with quitting := true }, .quit)
  else if k = "tab" then handlePaneNavigation m nextPane
  else if k = "shift+tab" then handlePaneNavigation m prevPane
  else if k = "1" then handlePaneNavigation m (fun m' => setActivePane m' 0)
  else if k = "2" then handlePaneNavigation m (fun m' => setActivePane m' 1)
  else if k = "3" then handlePaneNavigation m (fun m' => setActivePane m' 2)
  else if k = "4" then handlePaneNavigation m (fun m' => setActivePane m' 3)
  else if k = "ctrl+r" then refreshAll m
  else if k = "?" then (m, goBatch [])
  else if k = "j" ∨ k = "down" then handleVerticalNavigation m true
  else if k = "k" ∨ k = "up" then handleVerticalNavigation m false
  else if k = "g" then handleJumpToTop m
  else if k = "G" then handleJumpToBottom m
  else (m, .nilCmd)

/-- How one key message left the router. -/
inductive RouteResult
  | toggledFocus
  | consumed (c : GoCmd)
  | droppedDetails
  | forwardedToPane (i : Int)
  | notForwarded

/-- The forwarded pane index, if any. -/
def RouteResult.forwardIdx : RouteResult → Option Int
  | .forwardedToPane i => some i
  | _ => none

/-- Whether the route consumed the key with the quit command. -/
def RouteResult.isQuitConsumed : RouteResult → Bool
  | .consumed .quit => true
  | _ => false

/-- Whether the route consumed the key with some non-nil command. -/
def RouteResult.isConsumed : RouteResult → Bool
  | .consumed _ => true
  | _ => false

/-- Whether the route toggled focus. -/
def RouteResult.isToggled : RouteResult → Bool
  | .toggledFocus => true
  | _ => false

/-- The tea.KeyMsg branch of Model.Update in src/unnamed/part_003: the
space key toggles focus and returns; a non-nil command from
handleKeyMsg short-circuits; with focus on the details layer the key is
dropped; otherwise the key message goes to the active pane's Update,
recorded here as the route result. -/
def updateKey (m : AppModel) (k : String) : AppModel × RouteResult :=
  if k = " " then (toggleFocus m, .toggledFocus)
  else
    let r := handleKeyMsg m k
    if r.2.isNil = false then (r.1, .consumed r.2)
    else if r.1.focus = Focus.FocusDetails then (r.1, .droppedDetails)
    else if r.1.activePane < (r.1.panesActive.length : Int) then
      (r.1, .forwardedToPane r.1.activePane)
    else (r.1, .notForwarded)

/-- The model NewModel builds in src/unnamed/part_003: four panes, all
constructed inactive, active index 0, focus on the left panes. -/
def app3Init : AppModel :=
  { panesActive := [false, false, false, false], activePane := 0, width := 80, height := 24,
    quitting := false, filterMode := false, filterText := "",
    details := { selectedLine := 0, scrollPos := 0, lines := [] },
    focus := Focus.FocusLeftPanes }

/-- setActivePane does not touch the focus layer. -/
theorem setActivePane_focus (m : AppModel) (i : Int) :
    (setActivePane m i).focus = m.focus := by
  simp only [setActivePane]
  split_ifs <;> rfl

/-- setActivePane keeps the active index nonnegative and in bounds. -/
theorem setActivePane_bounds (m : AppModel) (i : Int) (h0 : 0 ≤ m.activePane)
    (hlt : m.activePane < (m.panesActive.length : Int)) :
    0 ≤ (setActivePane m i).activePane ∧
    (setActivePane m i).activePane < ((setActivePane m i).panesActive.length : Int) := by
  simp only [setActivePane]
  split_ifs with hc
  · refine ⟨hc.1, ?_⟩
    show i < ((Router.setActiveFlags i 0 m.panesActive).length : Int)
    rw [Router.setActiveFlags_length]
    exact hc.2
  · exact ⟨h0, hlt⟩

/-- handleVerticalNavigation returns a nil command and only changes the
details view. -/
theorem hv_spec (m : AppModel) (down : Bool) :
    (handleVerticalNavigation m down).2.isNil = true ∧
    (handleVerticalNavigation m down).1.focus = m.focus ∧
    (handleVerticalNavigation m down).1.activePane = m.activePane ∧
    (handleVerticalNavigation m down).1.panesActive = m.panesActive := by
  simp only [handleVerticalNavigation]
  split_ifs <;> exact ⟨rfl, rfl, rfl, rfl⟩

/-- handleJumpToTop returns a nil command and only changes the details
view. -/
theorem jtop_spec (m : AppModel) :
    (handleJumpToTop m).2.isNil = true ∧
    (handleJumpToTop m).1.focus = m.focus ∧
    (handleJumpToTop m).1.activePane = m.activePane ∧
    (handleJumpToTop m).1.panesActive = m.panesActive := by
  simp only [handleJumpToTop]
  split_ifs <;> exact ⟨rfl, rfl, rfl, rfl⟩

/-- handleJumpToBottom returns a nil command and only changes the
details view. -/
theorem jbot_spec (m : AppModel) :
    (handleJumpToBottom m).2.isNil = true ∧
    (handleJumpToBottom m).1.focus = m.focus ∧
    (handleJumpToBottom m).1.activePane = m.activePane ∧
    (handleJumpToBottom m).1.panesActive = m.panesActive := by
  simp only [handleJumpToBottom]
  split_ifs <;> exact ⟨rfl, rfl, rfl, rfl⟩

/-- With focus on the left panes, handlePaneNavigation runs the switch,
returns the nil command, and keeps focus and bounds. -/
theorem paneNav_spec (m : AppModel) (nav : AppModel → AppModel)
    (hnavf : (nav m).focus = m.focus)
    (hnavb : 0 ≤ (nav m).activePane ∧
      (nav m).activePane < ((nav m).panesActive.length : Int))
    (hf : m.focus = Focus.FocusLeftPanes) :
    (handlePaneNavigation m nav).2.isNil = true ∧
    (handlePaneNavigation m nav).1.focus = Focus.FocusLeftPanes ∧
    0 ≤ (handlePaneNavigation m nav).1.activePane ∧
    (handlePaneNavigation m nav).1.activePane <
      ((handlePaneNavigation m nav).1.panesActive.length : Int) := by
  simp only [handlePaneNavigation]
  rw [if_pos hf]
  exact ⟨rfl, hnavf.trans hf, hnavb.1, hnavb.2⟩

/-- refreshAll on at least one pane returns a non-nil batch. -/
theorem goBatch_refresh_not_nil (n : Nat) (hn : 0 < n) :
    (goBatch ((List.range n).map GoCmd.refreshOne)).isNil = false := by
  have hfil : ((List.range n).map GoCmd.refreshOne).filter (fun c => !c.isNil)
      = (List.range n).map GoCmd.refreshOne := by
    rw [List.filter_eq_self]
    intro c hc
    obtain ⟨i, _, rfl⟩ := List.mem_map.mp hc
    rfl
  simp only [goBatch]
  rw [hfil]
  cases hr : (List.range n).map GoCmd.refreshOne with
  | nil =>
    have := congrArg List.length hr
    simp at this
    omega
  | cons a t =>
    have ha : a ∈ (List.range n).map GoCmd.refreshOne := by
      rw [hr]
      exact List.mem_cons_self a t
    obtain ⟨i, _, rfl⟩ := List.mem_map.mp ha
    cases t with
    | nil => rfl
    | cons b t' => rfl

/-- For every key other than quit, refresh-all, and the space toggle,
handleKeyMsg returns the nil command and keeps the focus layer and the
active-index bounds. -/
theorem handleKeyMsg_forward_spec (m : AppModel) (k : String)
    (hf : m.focus = Focus.FocusLeftPanes)
    (h0 : 0 ≤ m.activePane) (hlt : m.activePane < (m.panesActive.length : Int))
    (hq : ¬ k = "q") (hcc : ¬ k = "ctrl+c") (hcr : ¬ k = "ctrl+r") :
    (handleKeyMsg m k).2.isNil = true ∧
    (handleKeyMsg m k).1.focus = Focus.FocusLeftPanes ∧
    0 ≤ (handleKeyMsg m k).1.activePane ∧
    (handleKeyMsg m k).1.activePane < ((handleKeyMsg m k).1.panesActive.length : Int) := by
  simp only [handleKeyMsg]
  rw [if_neg (show ¬ (k = "q" ∨ k = "ctrl+c") from fun h => h.elim hq hcc)]
  split_ifs
  · exact paneNav_spec m nextPane (setActivePane_focus m _)
      (setActivePane_bounds m _ h0 hlt) hf
  · exact paneNav_spec m prevPane (setActivePane_focus m _)
      (setActivePane_bounds m _ h0 hlt) hf
  · exact paneNav_spec m _ (setActivePane_focus m 0) (setActivePane_bounds m 0 h0 hlt) hf
  · exact paneNav_spec m _ (setActivePane_focus m 1) (setActivePane_bounds m 1 h0 hlt) hf
  · exact paneNav_spec m _ (setActivePane_focus m 2) (setActivePane_bounds m 2 h0 hlt) hf
  · exact paneNav_spec m _ (setActivePane_focus m 3) (setActivePane_bounds m 3 h0 hlt) hf
  · exact ⟨rfl, hf, h0, hlt⟩
  · obtain ⟨a, b, c, d⟩ := hv_spec m true
    exact ⟨a, b.trans hf, by rw [c]; exact h0, by rw [c, d]; exact hlt⟩
  · obtain ⟨a, b, c, d⟩ := hv_spec m false
    exact ⟨a, b.trans hf, by rw [c]; exact h0, by rw [c, d]; exact hlt⟩
  · obtain ⟨a, b, c, d⟩ := jtop_spec m
    exact ⟨a, b.trans hf, by rw [c]; exact h0, by rw [c, d]; exact hlt⟩
  · obtain ⟨a, b, c, d⟩ := jbot_spec m
    exact ⟨a, b.trans hf, by rw [c]; exact h0, by rw [c, d]; exact hlt⟩
  · exact ⟨rfl, hf, h0, hlt⟩

/-- Counterexample to claim C4 as stated: with focus on the panel layer,
the listed global command tab (next pane) does not short-circuit.  The
bare tea.Batch() it returns is the nil command, so after the pane
switch the same key event is also forwarded to the newly active pane
(index 1). -/
theorem c4_counterexample :
    (updateKey app3Init "tab").1.activePane = 1 ∧
    (updateKey app3Init "tab").2.forwardIdx = some 1 := by
  decide

/-- Claim C4 (amended): with focus on the panel layer and an in-bounds
active index, the quit keys return the quit command and short-circuit,
the space key toggles focus and short-circuits, refresh-all returns a
non-nil batch and short-circuits, and every other key — the pane
switches tab, shift+tab and 1-4 included, since their empty command
batch is the nil command — is forwarded to the update handler of the
pane that is active once any switch the key performed has happened. -/
theorem c4_key_routing (m : AppModel) (k : String)
    (hf : m.focus = Focus.FocusLeftPanes)
    (h0 : 0 ≤ m.activePane) (hlt : m.activePane < (m.panesActive.length : Int)) :
    ((k = "q" ∨ k = "ctrl+c") → (updateKey m k).2.isQuitConsumed = true) ∧
    (k = " " → (updateKey m k).2.isToggled = true) ∧
    (k = "ctrl+r" → (updateKey m k).2.isConsumed = true) ∧
    (k ∉ ([" ", "q", "ctrl+c", "ctrl+r"] : List String) →
      (updateKey m k).2.forwardIdx = some ((updateKey m k).1.activePane)) := by
  refine ⟨?_, ?_, ?_, ?_⟩
  · intro h
    have hr : handleKeyMsg m k = ({ m with quitting := true }, GoCmd.quit) := by
      simp only [handleKeyMsg]
      rw [if_pos h]
    have hks : ¬ k = " " := by
      rcases h with rfl | rfl <;> decide
    simp only [updateKey]
    rw [if_neg hks, hr]
    rfl
  · intro h
    subst h
    simp only [updateKey]
    rw [if_pos trivial]
    rfl
  · intro h
    subst h
    have hr : handleKeyMsg m "ctrl+r" = refreshAll m := by
      simp only [handleKeyMsg]
      rw [if_neg (by decide), if_neg (by decide), if_neg (by decide), if_neg (by decide),
        if_neg (by decide), if_neg (by decide), if_neg (by decide), if_pos trivial]
    have hlenpos : 0 < m.panesActive.length := by omega
    have hnil : (handleKeyMsg m "ctrl+r").2.isNil = false := by
      rw [hr]
      exact goBatch_refresh_not_nil m.panesActive.length hlenpos
    simp only [updateKey]
    rw [if_neg (by decide), if_pos hnil]
    rfl
  · intro hmem
    simp only [List.mem_cons, List.not_mem_nil, or_false, not_or] at hmem
    obtain ⟨hsp, hq, hcc, hcr⟩ := hmem
    obtain ⟨hnil, hfoc, hb0, hblt⟩ := handleKeyMsg_forward_spec m k hf h0 hlt hq hcc hcr
    have hc1 : ¬ ((handleKeyMsg m k).2.isNil = false) := by
      rw [hnil]
      simp
    have hc2 : ¬ ((handleKeyMsg m k).1.focus = Focus.FocusDetails) := by
      rw [hfoc]
      simp
    simp only [updateKey]
    rw [if_neg hsp, if_neg hc1, if_neg hc2, if_pos hblt]
    rfl

/-- Witness for C4 (amended) on the freshly constructed model: the key
x, matching no global, is forwarded to the active pane, and q is
consumed as quit. -/
theorem c4_key_routing_witness :
    (updateKey app3Init "x").2.forwardIdx = some ((updateKey app3Init "x").1.activePane) ∧
    (updateKey app3Init "q").2.isQuitConsumed = true :=
  ⟨(c4_key_routing app3Init "x" rfl (by decide) (by decide)).2.2.2 (by decide),
   (c4_key_routing app3Init "q" rfl (by decide) (by decide)).1 (Or.inl rfl)⟩

end App3

end TUI101
